import Mathlib

/-!
Verification of the flashcard record parser and tag-balance validator
(`NewEntriesFromFile`, `IsValidHTML` in main.go) against its specification.

Modelling conventions:
* Go strings are modelled as Lean `String` / `List Char`; all inputs of
  interest are ASCII, where Go's byte indexing and char indexing agree.
* Go runtime panics (out-of-range indexing) are modelled as explicit
  result constructors (`HTMLResult.panic`, `ParseResult.panicIndex`).
* The validator's scanning loop is written with an explicit fuel
  parameter so that it is structurally recursive and kernel-evaluable.
  Every iteration strictly increases `offset` by at least one and the
  loop stops as soon as `offset ≥ cs.length`, so at most
  `cs.length + 1` iterations occur; the fuel `cs.length + 1` supplied by
  `IsValidHTML` is therefore never exhausted (the fuel-0 fallback is
  unreachable).
-/

/-- Model of `strings.IndexByte` restricted to a character: index of the
first occurrence, or `none` (Go returns -1). -/
def indexOfChar (cs : List Char) (c : Char) : Option Nat :=
  match cs with
  | [] => none
  | x :: rest => if x = c then some 0 else (indexOfChar rest c).map (fun n => n + 1)

/-- Characters trimmed by Go's `strings.TrimSpace` (unicode.IsSpace on the
Latin-1 range). -/
def goIsSpace (c : Char) : Bool :=
  c = ' ' || c = '\t' || c = '\n' || c = '\x0b' || c = '\x0c' || c = '\r' ||
  c = Char.ofNat 0x85 || c = Char.ofNat 0xA0

/-- Model of `strings.TrimSpace` on a character list. -/
def goTrimSpace (cs : List Char) : List Char :=
  ((cs.dropWhile goIsSpace).reverse.dropWhile goIsSpace).reverse

/-- Result of `IsValidHTML`: success, an error value, or a Go runtime
panic (index out of range). -/
inductive HTMLResult where
  | ok : HTMLResult
  | err : String → HTMLResult
  | panic : HTMLResult
deriving DecidableEq, Repr

/-- The check performed after `IsValidHTML`'s scanning loop ends: the
stack of open tags must be empty.  The Go stack is a slice with the top
at the end; we keep the top at the head, so the Go printing order
(`%+v` of the slice) is the reverse of our list. -/
def htmlFinish (tags : List String) : HTMLResult :=
  if tags = [] then HTMLResult.ok
  else HTMLResult.err ("not all tags closed: [" ++ String.intercalate " " tags.reverse ++ "]")

/-- The scanning loop of `IsValidHTML` (main.go).  `offset` is the loop
variable; `tags` the stack of open tag names (top at head).  One fuel
unit is consumed per iteration; see the header comment for why the
fuel-0 case is unreachable for the fuel chosen by `IsValidHTML`. -/
def htmlLoop : Nat → List Char → Nat → List String → HTMLResult
  | 0, _, _, _ => HTMLResult.panic
  | fuel + 1, cs, offset, tags =>
    if offset < cs.length then
      match indexOfChar (cs.drop offset) '<' with
      | none => htmlFinish tags
      | some s0 =>
        -- Go: start := offset + s0; if offset < start, reject a '>' in the gap
        if 0 < s0 && (indexOfChar ((cs.drop offset).take s0) '>').isSome then
          HTMLResult.err "found closing bracket before an opening bracket"
        else
          match indexOfChar (cs.drop (offset + s0)) '>' with
          | none => HTMLResult.err "found opening bracket but no closing bracket"
          | some e0 =>
            -- Go: end := start + e0; tag := TrimSpace(s[start+1:end]),
            -- truncated at the first ' '
            let start := offset + s0
            let tagT := goTrimSpace ((cs.drop (start + 1)).take (e0 - 1))
            let tag := match indexOfChar tagT ' ' with
              | some i => tagT.take i
              | none => tagT
            if tag = [] then HTMLResult.err "empty tag found"
            else if tag.head? = some '/' then
              -- Go: tags[len(tags)-1] — panics when the stack is empty
              match tags with
              | [] => HTMLResult.panic
              | top :: restTags =>
                if top = String.mk tag.tail then
                  htmlLoop fuel cs (start + e0 + 1) restTags
                else
                  HTMLResult.err ("mismatched close tag found: " ++ top ++ " != " ++
                    String.mk tag.tail)
            else htmlLoop fuel cs (start + e0 + 1) (String.mk tag :: tags)
    else htmlFinish tags

/-- Model of `IsValidHTML` (main.go): scan for angle-bracket tags and
check balance with a stack. -/
def IsValidHTML (s : String) : HTMLResult :=
  htmlLoop (s.length + 1) s.data 0 []

example : IsValidHTML "<b>hello</b>" = HTMLResult.ok := by decide
example : IsValidHTML "<b>hello</i>" = HTMLResult.err "mismatched close tag found: b != i" := by
  decide
example : IsValidHTML "</b>" = HTMLResult.panic := by decide
example : IsValidHTML "<p>1 < 5</p>" = HTMLResult.err "not all tags closed: [p 5</p]" := by
  decide
example : IsValidHTML "<p>1 <> 5</p>" = HTMLResult.err "empty tag found" := by decide
example : IsValidHTML "1 > 0" = HTMLResult.ok := by decide
example : IsValidHTML "< >" = HTMLResult.err "empty tag found" := by decide

/-- Digit test used by the cloze regexp class `[[:digit:]]`. -/
def isDigitChar (c : Char) : Bool :=
  decide ('0' ≤ c) && decide (c ≤ '9')

/-- Numeric value of a digit character. -/
def digitVal (c : Char) : Nat := c.toNat - 48

/-- Decimal digit-string parser underlying `goParseInt`: `none` when the
list is empty or contains a non-digit. -/
def parseDigits : List Char → Nat → Option Nat
  | [], acc => some acc
  | c :: cs, acc => if isDigitChar c then parseDigits cs (acc * 10 + digitVal c) else none

/-- Model of Go `strconv.ParseInt(s, 10, 0)`: an optional sign followed
by one or more decimal digits.  The inputs of interest are 4 characters
long, so 64-bit overflow cannot occur and is not modelled. -/
def goParseInt (s : String) : Option Int :=
  match s.data with
  | [] => none
  | '+' :: ds => if ds = [] then none else (parseDigits ds 0).map (fun n => (n : Int))
  | '-' :: ds => if ds = [] then none else (parseDigits ds 0).map (fun n => -(n : Int))
  | ds => (parseDigits ds 0).map (fun n => (n : Int))

/-- Model of `strconv.Quote` / the `%q` format verb, for the printable
ASCII content that occurs in this format (plus the common escapes). -/
def goQuoteChar (c : Char) : String :=
  if c = '"' then "\\\""
  else if c = '\\' then "\\\\"
  else if c = '\n' then "\\n"
  else if c = '\t' then "\\t"
  else if c = '\r' then "\\r"
  else String.mk [c]

/-- Quote a string as Go's `%q` does on printable ASCII input. -/
def goQuote (s : String) : String :=
  "\"" ++ String.join (s.data.map goQuoteChar) ++ "\""

/-- Left brace character (written numerically throughout). -/
def lbrace : Char := Char.ofNat 123

/-- Right brace character. -/
def rbrace : Char := Char.ofNat 125

/-- A match of the cloze regexp `\x7b\x7bc[[:digit:]]::(.+)\x7d\x7d`
inside `cs`, with the fixed prefix starting at index `i` and the closing
brace pair starting at index `j`.  The capture `(.+)` is the non-empty
run `cs[i+6 .. j)`, which may not contain a newline. -/
def clozeMatchAt (cs : List Char) (i j : Nat) : Bool :=
  (cs.get? i == some lbrace) && (cs.get? (i + 1) == some lbrace) &&
  (cs.get? (i + 2) == some 'c') &&
  (match cs.get? (i + 3) with | some c => isDigitChar c | none => false) &&
  (cs.get? (i + 4) == some ':') && (cs.get? (i + 5) == some ':') &&
  decide (i + 6 < j) &&
  ((cs.drop (i + 6)).take (j - (i + 6))).all (fun c => c != '\n') &&
  (cs.get? j == some rbrace) && (cs.get? (j + 1) == some rbrace)

/-- Model of `ClozeDeletionRegexp.FindStringSubmatch`: `some content`
gives the capture of the leftmost match, with the greedy `(.+)`
extending to the last possible closing brace pair; `none` means no
match.  Only existence of the match is consumed by dirty-flag logic. -/
def clozeFind (s : String) : Option String :=
  let cs := s.data
  match (List.range cs.length).find? (fun i =>
      (List.range (cs.length + 1)).any (fun j => clozeMatchAt cs i j)) with
  | none => none
  | some i =>
    match ((List.range (cs.length + 1)).filter (fun j => clozeMatchAt cs i j)).getLast? with
    | some j => some (String.mk ((cs.drop (i + 6)).take (j - (i + 6))))
    | none => none

/-- Helper to build cloze-marked strings in tests: wraps `content` in
the `\x7b\x7bc<d>::content\x7d\x7d` pattern. -/
def clozeWrap (d : Char) (content : String) : String :=
  String.mk ([lbrace, lbrace, 'c', d, ':', ':'] ++ content.data ++ [rbrace, rbrace])

example : clozeFind (clozeWrap '1' "read") = some "read" := by decide
example : clozeFind "no pattern here" = none := by decide
example : clozeFind ("a " ++ clozeWrap '3' "x" ++ " b") = some "x" := by decide

/-- One flashcard record (`Entry` in main.go). -/
structure Entry where
  id : Int
  dirty : Bool
  comments : List String
  input : String
  usage : String
  translation : String
  word : String
  pronunciation : String
  definition : String
  tags : List String
deriving DecidableEq, Repr

/-- The Go zero value of `Entry` (fresh accumulator, absent slot). -/
def Entry.empty : Entry :=
  { id := 0, dirty := false, comments := [], input := "", usage := "", translation := "",
    word := "", pronunciation := "", definition := "", tags := [] }

/-- The fixed 2200-slot storage `[2200]Entry` is modelled as a total map
from slot index to entry; the in-bounds obligation of every write is
checked explicitly at the write site in `parseLoop`. -/
abbrev Entries := Nat → Entry

/-- The zero value of the storage: every slot absent. -/
def Entries.empty : Entries := fun _ => Entry.empty

/-- Array assignment `entries[i] = e`. -/
def Entries.set (a : Entries) (i : Nat) (e : Entry) : Entries :=
  fun j => if j = i then e else a j

/-- Structural parse failure (`EntriesParseError` in main.go). -/
structure EntriesParseError where
  line : Nat
  data : String
  reason : String
deriving DecidableEq, Repr

/-- The record terminator literal (`EntryDelimiter`). -/
def EntryDelimiter : String := "---"

/-- The dirty marker byte (`EntryDirtyMarker`). -/
def EntryDirtyMarker : Char := '*'

/-- Error text for an ID line shorter than 4 characters. -/
def idTooShortReason (line : Nat) (data : String) : String :=
  "line " ++ toString line ++ ": entry ID too short: " ++ goQuote data ++
    ": found " ++ toString data.length ++ " digits, expected 4 digits"

/-- Error text for an unparseable 4-character ID prefix. -/
def idParseFailReason (line : Nat) (data : String) : String :=
  "line " ++ toString line ++ ": failed to parse entry ID: " ++ goQuote data ++
    ": strconv.ParseInt: parsing " ++ goQuote (data.take 4) ++ ": invalid syntax"

/-- Error text for a terminator-role line that is not the delimiter;
it reports both the found line content and the expected delimiter. -/
def endMismatchReason (line : Nat) (data : String) : String :=
  "line " ++ toString line ++ ": unexpected end of entry. found: " ++ goQuote data ++
    ", expected: " ++ goQuote EntryDelimiter

/-- Accumulating worker for `goSplit`; `acc` holds the current field in
reverse. -/
def goSplitAux (sep : Char) : List Char → List Char → List String
  | [], acc => [String.mk acc.reverse]
  | c :: rest, acc =>
    if c = sep then String.mk acc.reverse :: goSplitAux sep rest []
    else goSplitAux sep rest (c :: acc)

/-- Model of Go `strings.Split` with a one-character separator: empty
fields between consecutive separators are preserved, and the empty
string splits to one empty field. -/
def goSplit (s : String) (sep : Char) : List String :=
  goSplitAux sep s.data []

/-- The `EntryID` case of the scanner (main.go): the first 4 characters
are the id, index 4 is tested against the dirty marker, and characters
from index 6 on seed the comment list (which is reset here). -/
def processID (line : Nat) (data : String) (cur : Entry) : Except EntriesParseError Entry :=
  if data.length < 4 then
    Except.error { line := line, data := data, reason := idTooShortReason line data }
  else
    match goParseInt (data.take 4) with
    | none => Except.error { line := line, data := data, reason := idParseFailReason line data }
    | some id =>
      Except.ok { cur with
        id := id,
        dirty := decide (5 ≤ data.length) && (data.data.get? 4 == some EntryDirtyMarker),
        comments := if 7 ≤ data.length then [data.drop 6] else [] }

/-- The `EntryUsage` case: store the line, extract the cloze capture or
flag the record dirty, then tag-validate the line.  A validator panic
propagates (`none`). -/
def processUsage (data : String) (cur : Entry) : Option Entry :=
  let c0 := { cur with usage := data }
  let c1 := match clozeFind data with
    | some inner => { c0 with input := inner }
    | none =>
      { c0 with dirty := true, comments := c0.comments ++ ["usage is missing cloze deletion."] }
  match IsValidHTML data with
  | HTMLResult.ok => some c1
  | HTMLResult.err msg => some { c1 with dirty := true, comments := c1.comments ++ [msg] }
  | HTMLResult.panic => none

/-- The `EntryTranslation` case: like the usage case but without
capture extraction. -/
def processTranslation (data : String) (cur : Entry) : Option Entry :=
  let c0 := { cur with translation := data }
  let c1 := if (clozeFind data).isSome then c0
    else
      { c0 with
          dirty := true,
          comments := c0.comments ++ ["translation is missing cloze deletion."] }
  match IsValidHTML data with
  | HTMLResult.ok => some c1
  | HTMLResult.err msg => some { c1 with dirty := true, comments := c1.comments ++ [msg] }
  | HTMLResult.panic => none

/-- Outcome of `NewEntriesFromFile`.  Go returns the storage both on
success and on parse error; the two panic constructors model the Go
runtime panics reachable in the source (validator close on an empty
stack; storage write with index outside `[0, 2200)`). -/
inductive ParseResult where
  | ok (entries : Entries)
  | error (entries : Entries) (err : EntriesParseError)
  | panicHTML
  | panicIndex (idx : Int)

/-- The scanner loop of `NewEntriesFromFile`: one line per iteration,
role `(line - 1) % 8` (the switch in main.go), `current` the transient
accumulator, `entries` the storage. -/
def parseLoop : List String → Nat → Entry → Entries → ParseResult
  | [], _, _, entries => ParseResult.ok entries
  | data :: rest, line, current, entries =>
    if (line - 1) % 8 = 0 then        -- EntryID
      match processID line data current with
      | Except.error e => ParseResult.error entries e
      | Except.ok cur => parseLoop rest (line + 1) cur entries
    else if (line - 1) % 8 = 1 then   -- EntryUsage
      match processUsage data current with
      | none => ParseResult.panicHTML
      | some cur => parseLoop rest (line + 1) cur entries
    else if (line - 1) % 8 = 2 then   -- EntryTranslation
      match processTranslation data current with
      | none => ParseResult.panicHTML
      | some cur => parseLoop rest (line + 1) cur entries
    else if (line - 1) % 8 = 3 then   -- EntryWord
      parseLoop rest (line + 1) { current with word := data } entries
    else if (line - 1) % 8 = 4 then   -- EntryPronunciation
      parseLoop rest (line + 1) { current with pronunciation := data } entries
    else if (line - 1) % 8 = 5 then   -- EntryDefinition
      parseLoop rest (line + 1) { current with definition := data } entries
    else if (line - 1) % 8 = 6 then   -- EntryTags
      parseLoop rest (line + 1) { current with tags := goSplit data ',' } entries
    else                               -- EntryEnd
      if data = EntryDelimiter then
        if 0 ≤ current.id - 1 ∧ current.id - 1 < 2200 then
          parseLoop rest (line + 1) Entry.empty
            (Entries.set entries (current.id - 1).toNat current)
        else ParseResult.panicIndex (current.id - 1)
      else
        ParseResult.error entries
          { line := line, data := data, reason := endMismatchReason line data }

/-- Model of `NewEntriesFromFile` (main.go) on an already-split line
stream (bufio.Scanner yields lines without terminators; I/O read
failures are outside this model). -/
def NewEntriesFromFile (lines : List String) : ParseResult :=
  parseLoop lines 1 Entry.empty Entries.empty

/-- Slot `i` of the storage carried by a parse outcome (present on both
the success and the error path, as in Go). -/
def resultSlot (r : ParseResult) (i : Nat) : Option Entry :=
  match r with
  | ParseResult.ok s => some (s i)
  | ParseResult.error s _ => some (s i)
  | ParseResult.panicHTML => none
  | ParseResult.panicIndex _ => none

/-- The structural error carried by a parse outcome, if any. -/
def resultErr (r : ParseResult) : Option EntriesParseError :=
  match r with
  | ParseResult.error _ e => some e
  | _ => none

/-- Whether a parse outcome is a clean success. -/
def resultIsOk (r : ParseResult) : Bool :=
  match r with
  | ParseResult.ok _ => true
  | _ => false

example :
    resultSlot (NewEntriesFromFile
      ["0001", clozeWrap '1' "read", clozeWrap '2' "lesen", "w", "p", "d", "a,b", "---"]) 0 =
    some { id := 1, dirty := false, comments := [], input := "read",
           usage := clozeWrap '1' "read", translation := clozeWrap '2' "lesen",
           word := "w", pronunciation := "p", definition := "d", tags := ["a", "b"] } := by
  decide

example :
    resultIsOk (NewEntriesFromFile
      ["0001", clozeWrap '1' "read", clozeWrap '2' "lesen", "w", "p", "d", "a,b", "---"]) =
    true := by decide

example :
    resultErr (NewEntriesFromFile ["ab"]) =
    some { line := 1, data := "ab", reason := idTooShortReason 1 "ab" } := by decide

example :
    resultErr (NewEntriesFromFile
      ["0001", clozeWrap '1' "r", clozeWrap '2' "l", "w", "p", "d", "t", "xxx"]) =
    some { line := 8, data := "xxx", reason := endMismatchReason 8 "xxx" } := by decide

/-- One 8-line input group in role order (ID, usage, translation, word,
pronunciation, definition, tags, terminator).  Proof-side scaffolding
for stating stream-level properties of `NewEntriesFromFile`. -/
structure EGroup where
  idLine : String
  usage : String
  translation : String
  word : String
  pronunciation : String
  definition : String
  tagsLine : String
  term : String
deriving DecidableEq, Repr

/-- The eight lines of a group, in the order consumed by the scanner. -/
def EGroup.lines (g : EGroup) : List String :=
  [g.idLine, g.usage, g.translation, g.word, g.pronunciation, g.definition, g.tagsLine, g.term]

/-- Concatenated line stream of a list of groups. -/
def linesOfGroups : List EGroup → List String
  | [] => []
  | g :: gs => g.lines ++ linesOfGroups gs

/-- The roles 3-6 of a group applied to an accumulator (word,
pronunciation, definition, tags), as the scanner performs them. -/
def finishEntry (g : EGroup) (e : Entry) : Entry :=
  { e with
      word := g.word,
      pronunciation := g.pronunciation,
      definition := g.definition,
      tags := goSplit g.tagsLine ',' }

/-- The value the scanner accumulates for one group just before the
terminator line, when every step succeeds: `none` when the ID line
errors or a validator call panics. -/
def runGroup (g : EGroup) : Option Entry :=
  match processID 1 g.idLine Entry.empty with
  | Except.error _ => none
  | Except.ok e1 =>
    match processUsage g.usage e1 with
    | none => none
    | some e2 =>
      match processTranslation g.translation e2 with
      | none => none
      | some e3 => some (finishEntry g e3)

/-- The record a good group commits. -/
def groupEntry (g : EGroup) : Entry := (runGroup g).getD Entry.empty

/-- The storage slot a good group commits to (`id - 1`). -/
def groupIdx (g : EGroup) : Nat := ((groupEntry g).id - 1).toNat

/-- A group the scanner processes without structural error or panic:
its accumulator is produced, its id is in the storage range, and its
terminator matches the delimiter. -/
def GoodGroupB (g : EGroup) : Bool :=
  (match runGroup g with
   | some e => decide (1 ≤ e.id) && decide (e.id ≤ 2200)
   | none => false) && (g.term == EntryDelimiter)

/-- Committing a list of groups into storage, in order. -/
def commitAll (ent : Entries) : List EGroup → Entries
  | [] => ent
  | g :: gs => commitAll (Entries.set ent (groupIdx g) (groupEntry g)) gs

lemma processID_ok_iff (line line2 : Nat) (data : String) (cur e : Entry) :
    processID line data cur = Except.ok e ↔ processID line2 data cur = Except.ok e := by
  by_cases hlen : data.length < 4
  · simp [processID, hlen]
  · cases hp : goParseInt (data.take 4) with
    | none => simp [processID, hlen, hp]
    | some v => simp [processID, hlen, hp]

lemma processID_ok_shape (line : Nat) (data : String) (cur e : Entry)
    (h : processID line data cur = Except.ok e) :
    goParseInt (data.take 4) = some e.id ∧
    e.dirty = (decide (5 ≤ data.length) && (data.data.get? 4 == some EntryDirtyMarker)) ∧
    e.comments = (if 7 ≤ data.length then [data.drop 6] else []) ∧
    e.input = cur.input ∧ e.usage = cur.usage ∧ e.translation = cur.translation ∧
    e.word = cur.word ∧ e.pronunciation = cur.pronunciation ∧
    e.definition = cur.definition ∧ e.tags = cur.tags := by
  by_cases hlen : data.length < 4
  · simp [processID, hlen] at h
  · cases hp : goParseInt (data.take 4) with
    | none => simp [processID, hlen, hp] at h
    | some v =>
      simp [processID, hlen, hp] at h
      subst h
      simp

lemma processUsage_some_shape (data : String) (cur e : Entry)
    (h : processUsage data cur = some e) :
    e.id = cur.id ∧ e.usage = data ∧ e.translation = cur.translation ∧
    e.word = cur.word ∧ e.pronunciation = cur.pronunciation ∧
    e.definition = cur.definition ∧ e.tags = cur.tags ∧
    (cur.dirty = true → e.dirty = true) ∧ (∀ m ∈ cur.comments, m ∈ e.comments) := by
  unfold processUsage at h
  cases hc : clozeFind data <;> rw [hc] at h <;>
    cases hv : IsValidHTML data <;> rw [hv] at h <;>
    simp at h <;> subst h <;> simp +contextual [List.mem_append]

lemma processTranslation_some_shape (data : String) (cur e : Entry)
    (h : processTranslation data cur = some e) :
    e.id = cur.id ∧ e.translation = data ∧ e.usage = cur.usage ∧ e.input = cur.input ∧
    e.word = cur.word ∧ e.pronunciation = cur.pronunciation ∧
    e.definition = cur.definition ∧ e.tags = cur.tags ∧
    (cur.dirty = true → e.dirty = true) ∧ (∀ m ∈ cur.comments, m ∈ e.comments) := by
  unfold processTranslation at h
  cases hc : (clozeFind data).isSome <;> rw [hc] at h <;>
    cases hv : IsValidHTML data <;> rw [hv] at h <;>
    simp at h <;> subst h <;> simp +contextual [List.mem_append]

lemma processUsage_clean (data : String) (cur : Entry) (v : String)
    (hc : clozeFind data = some v) (hh : IsValidHTML data = HTMLResult.ok) :
    processUsage data cur = some { cur with usage := data, input := v } := by
  simp [processUsage, hc, hh]

lemma processTranslation_clean (data : String) (cur : Entry)
    (hc : (clozeFind data).isSome) (hh : IsValidHTML data = HTMLResult.ok) :
    processTranslation data cur = some { cur with translation := data } := by
  simp [processTranslation, hc, hh]

lemma processUsage_nocloze (data : String) (cur e : Entry)
    (hc : clozeFind data = none) (h : processUsage data cur = some e) :
    e.dirty = true ∧ "usage is missing cloze deletion." ∈ e.comments := by
  unfold processUsage at h
  rw [hc] at h
  cases hv : IsValidHTML data <;> rw [hv] at h <;> simp at h <;> subst h <;>
    simp [List.mem_append]

lemma processUsage_isSome (data : String) (cur : Entry)
    (h : IsValidHTML data ≠ HTMLResult.panic) : (processUsage data cur).isSome := by
  unfold processUsage
  cases hv : IsValidHTML data <;> simp [hv] at h ⊢

lemma processTranslation_isSome (data : String) (cur : Entry)
    (h : IsValidHTML data ≠ HTMLResult.panic) : (processTranslation data cur).isSome := by
  unfold processTranslation
  cases hv : IsValidHTML data <;> simp [hv] at h ⊢

lemma parseLoop_step0_ok {line : Nat} {data : String} {cur c : Entry}
    (rest : List String) (ent : Entries)
    (h : (line - 1) % 8 = 0) (hid : processID line data cur = Except.ok c) :
    parseLoop (data :: rest) line cur ent = parseLoop rest (line + 1) c ent := by
  simp [parseLoop, h, hid]

lemma parseLoop_step1_some {line : Nat} {data : String} {cur c : Entry}
    (rest : List String) (ent : Entries)
    (h : (line - 1) % 8 = 1) (hp : processUsage data cur = some c) :
    parseLoop (data :: rest) line cur ent = parseLoop rest (line + 1) c ent := by
  simp [parseLoop, h, hp]

lemma parseLoop_step2_some {line : Nat} {data : String} {cur c : Entry}
    (rest : List String) (ent : Entries)
    (h : (line - 1) % 8 = 2) (hp : processTranslation data cur = some c) :
    parseLoop (data :: rest) line cur ent = parseLoop rest (line + 1) c ent := by
  simp [parseLoop, h, hp]

lemma parseLoop_step3 {line : Nat} {data : String} {cur : Entry}
    (rest : List String) (ent : Entries) (h : (line - 1) % 8 = 3) :
    parseLoop (data :: rest) line cur ent =
      parseLoop rest (line + 1) { cur with word := data } ent := by
  simp [parseLoop, h]

lemma parseLoop_step4 {line : Nat} {data : String} {cur : Entry}
    (rest : List String) (ent : Entries) (h : (line - 1) % 8 = 4) :
    parseLoop (data :: rest) line cur ent =
      parseLoop rest (line + 1) { cur with pronunciation := data } ent := by
  simp [parseLoop, h]

lemma parseLoop_step5 {line : Nat} {data : String} {cur : Entry}
    (rest : List String) (ent : Entries) (h : (line - 1) % 8 = 5) :
    parseLoop (data :: rest) line cur ent =
      parseLoop rest (line + 1) { cur with definition := data } ent := by
  simp [parseLoop, h]

lemma parseLoop_step6 {line : Nat} {data : String} {cur : Entry}
    (rest : List String) (ent : Entries) (h : (line - 1) % 8 = 6) :
    parseLoop (data :: rest) line cur ent =
      parseLoop rest (line + 1) { cur with tags := goSplit data ',' } ent := by
  simp [parseLoop, h]

lemma parseLoop_step7 {line : Nat} {data : String} {cur : Entry}
    (rest : List String) (ent : Entries) (h : (line - 1) % 8 = 7) :
    parseLoop (data :: rest) line cur ent =
      (if data = EntryDelimiter then
        (if 0 ≤ cur.id - 1 ∧ cur.id - 1 < 2200 then
          parseLoop rest (line + 1) Entry.empty (Entries.set ent (cur.id - 1).toNat cur)
        else ParseResult.panicIndex (cur.id - 1))
      else ParseResult.error ent
        { line := line, data := data, reason := endMismatchReason line data }) := by
  simp [parseLoop, h]

lemma parseLoop_seven (g : EGroup) (rest : List String) (line : Nat) (ent : Entries)
    (e1 e2 e3 : Entry)
    (h1 : 1 ≤ line) (hr : (line - 1) % 8 = 0)
    (hid : processID line g.idLine Entry.empty = Except.ok e1)
    (hu : processUsage g.usage e1 = some e2)
    (ht : processTranslation g.translation e2 = some e3) :
    parseLoop (g.lines ++ rest) line Entry.empty ent =
      (if g.term = EntryDelimiter then
        (if 0 ≤ (finishEntry g e3).id - 1 ∧ (finishEntry g e3).id - 1 < 2200 then
          parseLoop rest (line + 8) Entry.empty
            (Entries.set ent ((finishEntry g e3).id - 1).toNat (finishEntry g e3))
        else ParseResult.panicIndex ((finishEntry g e3).id - 1))
      else ParseResult.error ent
        { line := line + 7, data := g.term, reason := endMismatchReason (line + 7) g.term }) := by
  have m1 : (line + 1 - 1) % 8 = 1 := by omega
  have m2 : (line + 1 + 1 - 1) % 8 = 2 := by omega
  have m3 : (line + 1 + 1 + 1 - 1) % 8 = 3 := by omega
  have m4 : (line + 1 + 1 + 1 + 1 - 1) % 8 = 4 := by omega
  have m5 : (line + 1 + 1 + 1 + 1 + 1 - 1) % 8 = 5 := by omega
  have m6 : (line + 1 + 1 + 1 + 1 + 1 + 1 - 1) % 8 = 6 := by omega
  have m7 : (line + 1 + 1 + 1 + 1 + 1 + 1 + 1 - 1) % 8 = 7 := by omega
  have hl7 : line + 1 + 1 + 1 + 1 + 1 + 1 + 1 = line + 7 := by omega
  have hadd : line + 7 + 1 = line + 8 := by omega
  simp only [EGroup.lines, List.cons_append, List.nil_append]
  rw [parseLoop_step0_ok _ ent hr hid]
  rw [parseLoop_step1_some _ ent m1 hu]
  rw [parseLoop_step2_some _ ent m2 ht]
  rw [parseLoop_step3 _ ent m3]
  rw [parseLoop_step4 _ ent m4]
  rw [parseLoop_step5 _ ent m5]
  rw [parseLoop_step6 _ ent m6]
  rw [parseLoop_step7 _ ent m7]
  rw [hl7, hadd]
  rfl

lemma goodGroupB_elim (g : EGroup) (h : GoodGroupB g = true) :
    ∃ e, runGroup g = some e ∧ 1 ≤ e.id ∧ e.id ≤ 2200 ∧ g.term = EntryDelimiter := by
  unfold GoodGroupB at h
  rw [Bool.and_eq_true] at h
  obtain ⟨ha, hb⟩ := h
  cases hrg : runGroup g with
  | none => rw [hrg] at ha; cases ha
  | some e =>
    rw [hrg] at ha
    simp only [Bool.and_eq_true, decide_eq_true_eq] at ha
    exact ⟨e, rfl, ha.1, ha.2, by simpa using hb⟩

lemma runGroup_elim (g : EGroup) (e : Entry) (h : runGroup g = some e) :
    ∃ e1 e2 e3, processID 1 g.idLine Entry.empty = Except.ok e1 ∧
      processUsage g.usage e1 = some e2 ∧
      processTranslation g.translation e2 = some e3 ∧
      e = finishEntry g e3 := by
  unfold runGroup at h
  cases hid : processID 1 g.idLine Entry.empty with
  | error err => rw [hid] at h; simp at h
  | ok e1 =>
    rw [hid] at h
    simp only at h
    cases hu : processUsage g.usage e1 with
    | none => rw [hu] at h; simp at h
    | some e2 =>
      rw [hu] at h
      simp only at h
      cases ht : processTranslation g.translation e2 with
      | none => rw [ht] at h; simp at h
      | some e3 =>
        rw [ht] at h
        simp only [Option.some.injEq] at h
        exact ⟨e1, e2, e3, rfl, hu, ht, h.symm⟩

lemma parseLoop_goodGroup (g : EGroup) (rest : List String) (line : Nat) (ent : Entries)
    (hg : GoodGroupB g = true) (h1 : 1 ≤ line) (hr : (line - 1) % 8 = 0) :
    parseLoop (g.lines ++ rest) line Entry.empty ent =
      parseLoop rest (line + 8) Entry.empty
        (Entries.set ent (groupIdx g) (groupEntry g)) := by
  obtain ⟨e, he, hlo, hhi, hterm⟩ := goodGroupB_elim g hg
  obtain ⟨e1, e2, e3, hid, hu, ht, hE⟩ := runGroup_elim g e he
  have hid2 : processID line g.idLine Entry.empty = Except.ok e1 :=
    (processID_ok_iff line 1 g.idLine Entry.empty e1).mpr hid
  rw [parseLoop_seven g rest line ent e1 e2 e3 h1 hr hid2 hu ht]
  rw [← hE]
  rw [if_pos hterm]
  rw [if_pos (by omega : 0 ≤ e.id - 1 ∧ e.id - 1 < 2200)]
  have hge : groupEntry g = e := by unfold groupEntry; rw [he]; rfl
  rw [groupIdx, hge]

lemma parseLoop_goodGroups (gs : List EGroup) (rest : List String) :
    ∀ (line : Nat) (ent : Entries), 1 ≤ line → (line - 1) % 8 = 0 →
    (∀ g ∈ gs, GoodGroupB g = true) →
    parseLoop (linesOfGroups gs ++ rest) line Entry.empty ent =
      parseLoop rest (line + 8 * gs.length) Entry.empty (commitAll ent gs) := by
  induction gs with
  | nil =>
    intro line ent h1 hr hgood
    simp [linesOfGroups, commitAll]
  | cons g tl ih =>
    intro line ent h1 hr hgood
    have hg : GoodGroupB g = true := hgood g (by simp)
    have htl : ∀ x ∈ tl, GoodGroupB x = true := fun x hx => hgood x (by simp [hx])
    simp only [linesOfGroups, List.append_assoc]
    rw [parseLoop_goodGroup g _ line ent hg h1 hr]
    rw [ih (line + 8) _ (by omega) (by omega) htl]
    have harith : line + 8 + 8 * tl.length = line + 8 * (g :: tl).length := by
      simp [List.length_cons]; ring
    rw [harith]
    rfl

lemma commitAll_slot_notmem :
    ∀ (gs : List EGroup) (ent : Entries) (j : Nat),
      (∀ g ∈ gs, groupIdx g ≠ j) → commitAll ent gs j = ent j := by
  intro gs
  induction gs with
  | nil => intro ent j h; rfl
  | cons g tl ih =>
    intro ent j h
    have hstep : commitAll ent (g :: tl) = commitAll (Entries.set ent (groupIdx g) (groupEntry g)) tl := rfl
    rw [hstep]
    rw [ih _ j (fun x hx => h x (by simp [hx]))]
    unfold Entries.set
    rw [if_neg]
    intro hj
    exact h g (by simp) (by omega)

lemma commitAll_slot_mem :
    ∀ (gs : List EGroup) (ent : Entries) (g : EGroup),
      g ∈ gs → (gs.map groupIdx).Nodup → commitAll ent gs (groupIdx g) = groupEntry g := by
  intro gs
  induction gs with
  | nil => intro ent g hmem; simp at hmem
  | cons gh tl ih =>
    intro ent g hmem hnd
    rw [List.map_cons, List.nodup_cons] at hnd
    obtain ⟨hnotin, hndtl⟩ := hnd
    have hstep : commitAll ent (gh :: tl) = commitAll (Entries.set ent (groupIdx gh) (groupEntry gh)) tl := rfl
    rcases List.mem_cons.mp hmem with hEq | hmemtl
    · subst hEq
      rw [hstep]
      rw [commitAll_slot_notmem tl _ (groupIdx g) ?hne]
      case hne =>
        intro x hx hxeq
        exact hnotin (hxeq ▸ List.mem_map_of_mem groupIdx hx)
      unfold Entries.set
      rw [if_pos rfl]
    · rw [hstep]
      exact ih _ g hmemtl hndtl

lemma newEntries_goodGroups (gs : List EGroup) (h : ∀ g ∈ gs, GoodGroupB g = true) :
    NewEntriesFromFile (linesOfGroups gs) = ParseResult.ok (commitAll Entries.empty gs) := by
  have hmain := parseLoop_goodGroups gs [] 1 Entries.empty (le_refl 1) (by norm_num) h
  rw [List.append_nil] at hmain
  unfold NewEntriesFromFile
  rw [hmain]
  rfl

/-- An ID line that leaves the fresh record clean: too short to carry
the dirty marker at index 4 (or carrying a different character there)
and too short to carry an inline comment at index 6. -/
def cleanIDLineB (d : String) : Bool :=
  decide (d.length ≤ 6) &&
  !(decide (5 ≤ d.length) && (d.data.get? 4 == some EntryDirtyMarker))

/-- A content line (usage or translation) that triggers no diagnostic:
it contains a cloze-deletion match and tag-validates cleanly. -/
def cleanContentB (d : String) : Bool :=
  (clozeFind d).isSome && (IsValidHTML d == HTMLResult.ok)

/-- A fully well-formed group: processed without error or panic,
committed in range, with a clean ID line and clean content lines. -/
def WellFormedGroupB (g : EGroup) : Bool :=
  GoodGroupB g && cleanIDLineB g.idLine && cleanContentB g.usage && cleanContentB g.translation

lemma wellFormedB_elim (g : EGroup) (h : WellFormedGroupB g = true) :
    GoodGroupB g = true ∧ (groupEntry g).dirty = false ∧ (groupEntry g).comments = [] ∧
    goParseInt (g.idLine.take 4) = some (groupEntry g).id := by
  unfold WellFormedGroupB at h
  rw [Bool.and_eq_true, Bool.and_eq_true, Bool.and_eq_true] at h
  obtain ⟨⟨⟨hgood, hclean⟩, huc⟩, htc⟩ := h
  unfold cleanIDLineB at hclean
  rw [Bool.and_eq_true] at hclean
  obtain ⟨hlen, hmark⟩ := hclean
  have hlen2 : g.idLine.length ≤ 6 := of_decide_eq_true hlen
  have hmark2 :
      (decide (5 ≤ g.idLine.length) && (g.idLine.data.get? 4 == some EntryDirtyMarker)) = false := by
    cases hb : (decide (5 ≤ g.idLine.length) && (g.idLine.data.get? 4 == some EntryDirtyMarker)) with
    | false => rfl
    | true => rw [hb] at hmark; cases hmark
  unfold cleanContentB at huc htc
  rw [Bool.and_eq_true] at huc htc
  obtain ⟨hcz1, hh1⟩ := huc
  obtain ⟨hcz2, hh2⟩ := htc
  have hh1b : IsValidHTML g.usage = HTMLResult.ok := by simpa using hh1
  have hh2b : IsValidHTML g.translation = HTMLResult.ok := by simpa using hh2
  obtain ⟨v, hv⟩ := Option.isSome_iff_exists.mp hcz1
  obtain ⟨e, he, hlo, hhi, hterm⟩ := goodGroupB_elim g hgood
  obtain ⟨e1, e2, e3, hid, hu, ht, hE⟩ := runGroup_elim g e he
  obtain ⟨hparse, hdirty, hcomm, _, _, _, _, _, _, _⟩ :=
    processID_ok_shape 1 g.idLine Entry.empty e1 hid
  rw [hmark2] at hdirty
  rw [if_neg (by omega)] at hcomm
  have hu2 : processUsage g.usage e1 = some { e1 with usage := g.usage, input := v } :=
    processUsage_clean g.usage e1 v hv hh1b
  rw [hu2] at hu
  have he2 : e2 = { e1 with usage := g.usage, input := v } := by
    injection hu with h2
    exact h2.symm
  have ht2 : processTranslation g.translation e2 = some { e2 with translation := g.translation } :=
    processTranslation_clean g.translation e2 hcz2 hh2b
  rw [ht2] at ht
  have he3 : e3 = { e2 with translation := g.translation } := by
    injection ht with h3
    exact h3.symm
  have hge : groupEntry g = e := by unfold groupEntry; rw [he]; rfl
  refine ⟨hgood, ?_, ?_, ?_⟩
  · rw [hge, hE, he3, he2]
    simp [finishEntry, hdirty]
  · rw [hge, hE, he3, he2]
    simp [finishEntry, hcomm]
  · rw [hge, hE, he3, he2]
    simp only [finishEntry]
    exact hparse

/-- An ID line that the scanner accepts: at least 4 characters, with a
parseable 4-character prefix. -/
def idLineOkB (d : String) : Bool :=
  decide (4 ≤ d.length) && (goParseInt (d.take 4)).isSome

/-- A content line whose tag validation does not panic. -/
def noPanicB (d : String) : Bool :=
  !(IsValidHTML d == HTMLResult.panic)

/-- Trailing partial-group lines (fewer than 8) that are processed
without structural error or panic: the ID role line (position 0) must
parse and the usage/translation role lines (positions 1, 2) must not
crash the validator; roles 3-6 are stored verbatim and cannot fail. -/
def trailingOkB : List String → Bool
  | [] => true
  | [i0] => idLineOkB i0
  | [i0, u] => idLineOkB i0 && noPanicB u
  | i0 :: u :: t :: _ => idLineOkB i0 && noPanicB u && noPanicB t

lemma idLineOkB_elim (line : Nat) (d : String) (cur : Entry) (h : idLineOkB d = true) :
    ∃ c, processID line d cur = Except.ok c := by
  unfold idLineOkB at h
  rw [Bool.and_eq_true] at h
  obtain ⟨h4, hp⟩ := h
  have h4b : 4 ≤ d.length := of_decide_eq_true h4
  obtain ⟨v, hv⟩ := Option.isSome_iff_exists.mp hp
  refine ⟨{ cur with
      id := v,
      dirty := decide (5 ≤ d.length) && (d.data.get? 4 == some EntryDirtyMarker),
      comments := if 7 ≤ d.length then [d.drop 6] else [] }, ?_⟩
  unfold processID
  rw [if_neg (by omega), hv]

lemma processUsage_some_of_noPanic (d : String) (cur : Entry) (h : noPanicB d = true) :
    ∃ c, processUsage d cur = some c := by
  unfold noPanicB at h
  have hne : IsValidHTML d ≠ HTMLResult.panic := by
    intro hq
    rw [hq] at h
    simp at h
  exact Option.isSome_iff_exists.mp (processUsage_isSome d cur hne)

lemma processTranslation_some_of_noPanic (d : String) (cur : Entry) (h : noPanicB d = true) :
    ∃ c, processTranslation d cur = some c := by
  unfold noPanicB at h
  have hne : IsValidHTML d ≠ HTMLResult.panic := by
    intro hq
    rw [hq] at h
    simp at h
  exact Option.isSome_iff_exists.mp (processTranslation_isSome d cur hne)

lemma parseLoop_trailing (post : List String) (hlen : post.length < 8)
    (hok : trailingOkB post = true) :
    ∀ (line : Nat) (ent : Entries), 1 ≤ line → (line - 1) % 8 = 0 →
    parseLoop post line Entry.empty ent = ParseResult.ok ent := by
  intro line ent h1 hr
  have m1 : (line + 1 - 1) % 8 = 1 := by omega
  have m2 : (line + 1 + 1 - 1) % 8 = 2 := by omega
  have m3 : (line + 1 + 1 + 1 - 1) % 8 = 3 := by omega
  have m4 : (line + 1 + 1 + 1 + 1 - 1) % 8 = 4 := by omega
  have m5 : (line + 1 + 1 + 1 + 1 + 1 - 1) % 8 = 5 := by omega
  have m6 : (line + 1 + 1 + 1 + 1 + 1 + 1 - 1) % 8 = 6 := by omega
  rcases post with _ | ⟨i0, post⟩
  · rfl
  rcases post with _ | ⟨u, post⟩
  · obtain ⟨c1, hc1⟩ := idLineOkB_elim line i0 Entry.empty (by simpa [trailingOkB] using hok)
    rw [parseLoop_step0_ok [] ent hr hc1]
    rfl
  rcases post with _ | ⟨t, post⟩
  · have hok2 : idLineOkB i0 = true ∧ noPanicB u = true := by
      simpa [trailingOkB, Bool.and_eq_true] using hok
    obtain ⟨c1, hc1⟩ := idLineOkB_elim line i0 Entry.empty hok2.1
    obtain ⟨c2, hc2⟩ := processUsage_some_of_noPanic u c1 hok2.2
    rw [parseLoop_step0_ok _ ent hr hc1, parseLoop_step1_some [] ent m1 hc2]
    rfl
  have hok3 : idLineOkB i0 = true ∧ noPanicB u = true ∧ noPanicB t = true := by
    simpa [trailingOkB, Bool.and_eq_true, and_assoc] using hok
  obtain ⟨c1, hc1⟩ := idLineOkB_elim line i0 Entry.empty hok3.1
  obtain ⟨c2, hc2⟩ := processUsage_some_of_noPanic u c1 hok3.2.1
  obtain ⟨c3, hc3⟩ := processTranslation_some_of_noPanic t c2 hok3.2.2
  rcases post with _ | ⟨w, post⟩
  · rw [parseLoop_step0_ok _ ent hr hc1, parseLoop_step1_some _ ent m1 hc2,
      parseLoop_step2_some [] ent m2 hc3]
    rfl
  rcases post with _ | ⟨p, post⟩
  · rw [parseLoop_step0_ok _ ent hr hc1, parseLoop_step1_some _ ent m1 hc2,
      parseLoop_step2_some _ ent m2 hc3, parseLoop_step3 [] ent m3]
    rfl
  rcases post with _ | ⟨d6, post⟩
  · rw [parseLoop_step0_ok _ ent hr hc1, parseLoop_step1_some _ ent m1 hc2,
      parseLoop_step2_some _ ent m2 hc3, parseLoop_step3 _ ent m3,
      parseLoop_step4 [] ent m4]
    rfl
  rcases post with _ | ⟨tg, post⟩
  · rw [parseLoop_step0_ok _ ent hr hc1, parseLoop_step1_some _ ent m1 hc2,
      parseLoop_step2_some _ ent m2 hc3, parseLoop_step3 _ ent m3,
      parseLoop_step4 _ ent m4, parseLoop_step5 [] ent m5]
    rfl
  rcases post with _ | ⟨x, post⟩
  · rw [parseLoop_step0_ok _ ent hr hc1, parseLoop_step1_some _ ent m1 hc2,
      parseLoop_step2_some _ ent m2 hc3, parseLoop_step3 _ ent m3,
      parseLoop_step4 _ ent m4, parseLoop_step5 _ ent m5, parseLoop_step6 [] ent m6]
    rfl
  simp only [List.length_cons] at hlen
  omega

/-- Range condition on an ID line: when its 4-character prefix parses,
the resulting id lies in the storage range 1..2200; lines whose prefix
does not parse are unconstrained (they stop parsing with an error). -/
def idLineInRange (d : String) : Bool :=
  match goParseInt (d.take 4) with
  | some id => decide (1 ≤ id) && decide (id ≤ 2200)
  | none => true

/-- `idLineInRange` on every ID-role line of a stream, where `p` is the
0-based position of the first listed line. -/
def allIDsInRange : List String → Nat → Bool
  | [], _ => true
  | d :: rest, p => (if p % 8 = 0 then idLineInRange d else true) && allIDsInRange rest (p + 1)

lemma parseLoop_no_panicIndex :
    ∀ (lines : List String) (line : Nat) (cur : Entry) (ent : Entries) (i : Int),
      1 ≤ line → allIDsInRange lines (line - 1) = true →
      ((line - 1) % 8 = 0 ∨ (1 ≤ cur.id ∧ cur.id ≤ 2200)) →
      parseLoop lines line cur ent ≠ ParseResult.panicIndex i := by
  intro lines
  induction lines with
  | nil =>
    intro line cur ent i h1 hids hinv
    simp [parseLoop]
  | cons d rest ih =>
    intro line cur ent i h1 hids hinv
    have hstep : allIDsInRange (d :: rest) (line - 1) =
        ((if (line - 1) % 8 = 0 then idLineInRange d else true) &&
          allIDsInRange rest (line - 1 + 1)) := rfl
    rw [hstep, Bool.and_eq_true] at hids
    have hlshift : line - 1 + 1 = line := by omega
    rw [hlshift] at hids
    obtain ⟨hhead, htail⟩ := hids
    have htail2 : allIDsInRange rest (line + 1 - 1) = true := by
      rw [show line + 1 - 1 = line from by omega]
      exact htail
    by_cases hr0 : (line - 1) % 8 = 0
    · rw [if_pos hr0] at hhead
      cases hid : processID line d cur with
      | error err =>
        have hred : parseLoop (d :: rest) line cur ent = ParseResult.error ent err := by
          simp [parseLoop, hr0, hid]
        rw [hred]
        simp
      | ok c =>
        rw [parseLoop_step0_ok rest ent hr0 hid]
        apply ih (line + 1) c ent i (by omega) htail2
        right
        obtain ⟨hparse, _, _, _, _, _, _, _, _, _⟩ := processID_ok_shape line d cur c hid
        unfold idLineInRange at hhead
        rw [hparse] at hhead
        simp only [Bool.and_eq_true, decide_eq_true_eq] at hhead
        exact hhead
    · have hbounds : 1 ≤ cur.id ∧ cur.id ≤ 2200 := hinv.resolve_left hr0
      by_cases hr1 : (line - 1) % 8 = 1
      · cases hu : processUsage d cur with
        | none =>
          have hred : parseLoop (d :: rest) line cur ent = ParseResult.panicHTML := by
            simp [parseLoop, hr0, hr1, hu]
          rw [hred]
          simp
        | some c =>
          rw [parseLoop_step1_some rest ent hr1 hu]
          apply ih (line + 1) c ent i (by omega) htail2
          right
          have hcid : c.id = cur.id := (processUsage_some_shape d cur c hu).1
          rw [hcid]
          exact hbounds
      · by_cases hr2 : (line - 1) % 8 = 2
        · cases ht : processTranslation d cur with
          | none =>
            have hred : parseLoop (d :: rest) line cur ent = ParseResult.panicHTML := by
              simp [parseLoop, hr0, hr1, hr2, ht]
            rw [hred]
            simp
          | some c =>
            rw [parseLoop_step2_some rest ent hr2 ht]
            apply ih (line + 1) c ent i (by omega) htail2
            right
            have hcid : c.id = cur.id := (processTranslation_some_shape d cur c ht).1
            rw [hcid]
            exact hbounds
        · by_cases hr3 : (line - 1) % 8 = 3
          · rw [parseLoop_step3 rest ent hr3]
            apply ih (line + 1) _ ent i (by omega) htail2
            right
            exact hbounds
          · by_cases hr4 : (line - 1) % 8 = 4
            · rw [parseLoop_step4 rest ent hr4]
              apply ih (line + 1) _ ent i (by omega) htail2
              right
              exact hbounds
            · by_cases hr5 : (line - 1) % 8 = 5
              · rw [parseLoop_step5 rest ent hr5]
                apply ih (line + 1) _ ent i (by omega) htail2
                right
                exact hbounds
              · by_cases hr6 : (line - 1) % 8 = 6
                · rw [parseLoop_step6 rest ent hr6]
                  apply ih (line + 1) _ ent i (by omega) htail2
                  right
                  exact hbounds
                · have hr7 : (line - 1) % 8 = 7 := by omega
                  rw [parseLoop_step7 rest ent hr7]
                  by_cases hterm : d = EntryDelimiter
                  · rw [if_pos hterm, if_pos (by omega : 0 ≤ cur.id - 1 ∧ cur.id - 1 < 2200)]
                    apply ih (line + 1) Entry.empty _ i (by omega) htail2
                    left
                    omega
                  · rw [if_neg hterm]
                    simp

lemma indexOfChar_eq_none_of_not_mem (cs : List Char) (c : Char) (h : c ∉ cs) :
    indexOfChar cs c = none := by
  induction cs with
  | nil => rfl
  | cons x rest ih =>
    rw [List.mem_cons, not_or] at h
    unfold indexOfChar
    rw [if_neg (fun hx => h.1 hx.symm), ih h.2]
    rfl

/-- A string containing a stray closing bracket in the sense of claim
C10: some position holds a right angle bracket with no left angle
bracket at or after it. -/
def hasStrayGTB (s : String) : Bool :=
  (List.range s.data.length).any (fun i =>
    (s.data.get? i == some '>') && (s.data.drop i).all (fun c => c != '<'))

/-- Sample well-formed group (id 1). -/
def gSampleA : EGroup :=
  { idLine := "0001", usage := clozeWrap '1' "read", translation := clozeWrap '2' "lesen",
    word := "w", pronunciation := "p", definition := "d", tagsLine := "n2,verb", term := "---" }

/-- Sample group whose terminator line is wrong (id 2). -/
def gBadTerm : EGroup :=
  { idLine := "0002", usage := clozeWrap '1' "a", translation := clozeWrap '2' "b",
    word := "w", pronunciation := "p", definition := "d", tagsLine := "t", term := "END" }

/-- Sample well-formed group (id 3). -/
def gSampleC6 : EGroup :=
  { idLine := "0003", usage := clozeWrap '1' "x", translation := clozeWrap '2' "y",
    word := "w", pronunciation := "p", definition := "d", tagsLine := "t", term := "---" }

/-- Sample well-formed group (id 4). -/
def gSampleC7 : EGroup :=
  { idLine := "0004", usage := clozeWrap '1' "q", translation := clozeWrap '2' "r",
    word := "w", pronunciation := "p", definition := "d", tagsLine := "t", term := "---" }

/-- Sample group whose usage line has no cloze pattern (id 6). -/
def gNoCloze : EGroup :=
  { idLine := "0006", usage := "plain usage line", translation := clozeWrap '2' "z",
    word := "w", pronunciation := "p", definition := "d", tagsLine := "t", term := "---" }

/-- Claim C1: for a stream of well-formed groups (valid clean ID lines
with ids in range and pairwise distinct, cloze patterns present and tag
validation passing on both content lines, terminator `---` on each
group), `NewEntriesFromFile` succeeds and produces exactly one record
per group: slot `id-1` holds that group's record with `dirty = false`
and no comments, and every slot not named by a group stays at the
absent zero value. -/
theorem claim1_wellformed_groups (gs : List EGroup)
    (hw : ∀ g ∈ gs, WellFormedGroupB g = true)
    (hnd : (gs.map groupIdx).Nodup) :
    NewEntriesFromFile (linesOfGroups gs) = ParseResult.ok (commitAll Entries.empty gs) ∧
    (∀ g ∈ gs, commitAll Entries.empty gs (groupIdx g) = groupEntry g ∧
      (groupEntry g).dirty = false ∧ (groupEntry g).comments = [] ∧
      goParseInt (g.idLine.take 4) = some (groupEntry g).id) ∧
    (∀ j : Nat, (∀ g ∈ gs, groupIdx g ≠ j) → commitAll Entries.empty gs j = Entry.empty) := by
  have hgood : ∀ g ∈ gs, GoodGroupB g = true := fun g hg => (wellFormedB_elim g (hw g hg)).1
  refine ⟨newEntries_goodGroups gs hgood, ?_, ?_⟩
  · intro g hg
    obtain ⟨_, hd, hc, hp⟩ := wellFormedB_elim g (hw g hg)
    exact ⟨commitAll_slot_mem gs Entries.empty g hg hnd, hd, hc, hp⟩
  · intro j hj
    exact commitAll_slot_notmem gs Entries.empty j hj

/-- Witness for C1 at a concrete one-group stream. -/
theorem claim1_witness :
    NewEntriesFromFile (linesOfGroups [gSampleA]) =
      ParseResult.ok (commitAll Entries.empty [gSampleA]) :=
  (claim1_wellformed_groups [gSampleA] (by decide) (by decide)).1

/-- Claim C2 (code bug): on input `</b>` — a closing tag while the
stack of open tags is empty — the Go code evaluates
`tags[len(tags)-1]` on an empty slice and panics (index out of range)
instead of returning the mismatch error the specification describes. -/
theorem claim2_empty_stack_close_panics : IsValidHTML "</b>" = HTMLResult.panic := by decide

/-- Counterexample to claim C3 as stated: ID line `0001*` satisfies the
claim's hypotheses (length at least 4, prefix `0001` parses), the
record starts dirty, yet the character at index 3 (the 4th) is `1`, not
the dirty marker `*` — the marker actually tested is at index 4. -/
theorem claim3_counterexample :
    processID 1 "0001*" Entry.empty = Except.ok { Entry.empty with id := 1, dirty := true } ∧
    "0001*".data.get? 3 = some '1' := ⟨rfl, rfl⟩

/-- Claim C3 (amended): a record built from an accepted ID line starts
dirty if and only if the line has length at least 5 and the character
at index 4 (the 5th character) is the dirty marker `*`. -/
theorem claim3_amended (line : Nat) (data : String) (cur e : Entry)
    (h : processID line data cur = Except.ok e) :
    e.dirty = true ↔ 5 ≤ data.length ∧ data.data.get? 4 = some EntryDirtyMarker := by
  obtain ⟨_, hdirty, _, _, _, _, _, _, _, _⟩ := processID_ok_shape line data cur e h
  rw [hdirty]
  simp [Bool.and_eq_true, decide_eq_true_eq]

/-- Witness for the amended C3 at ID line `0002*`. -/
theorem claim3_witness :
    ({ Entry.empty with id := 2, dirty := true } : Entry).dirty = true ↔
      5 ≤ ("0002*" : String).length ∧ "0002*".data.get? 4 = some EntryDirtyMarker :=
  claim3_amended 1 "0002*" Entry.empty { Entry.empty with id := 2, dirty := true } rfl

/-- Counterexample to claim C4 as stated: ID line `0001*X` has a
character after index 4 (the `X` at offset 5), yet the record's comment
list is empty — the inline comment is actually taken from offset 6
onward and only when the line has at least 7 characters. -/
theorem claim4_counterexample :
    processID 1 "0001*X" Entry.empty = Except.ok { Entry.empty with id := 1, dirty := true } ∧
    "0001*X".data.get? 5 = some 'X' := ⟨rfl, rfl⟩

/-- Claim C4 (amended): an accepted ID line seeds the substring from
offset 6 onward as the single initial comment exactly when the line has
at least 7 characters; shorter ID lines leave the comment list empty. -/
theorem claim4_amended (line : Nat) (data : String) (cur e : Entry)
    (h : processID line data cur = Except.ok e) :
    e.comments = if 7 ≤ data.length then [data.drop 6] else [] :=
  (processID_ok_shape line data cur e h).2.2.1

/-- Witness for the amended C4 at ID line `0003* hello`. -/
theorem claim4_witness :
    ({ Entry.empty with id := 3, dirty := true, comments := ["hello"] } : Entry).comments =
      if 7 ≤ ("0003* hello" : String).length then [("0003* hello" : String).drop 6] else [] :=
  claim4_amended 1 "0003* hello" Entry.empty
    { Entry.empty with id := 3, dirty := true, comments := ["hello"] } rfl

/-- Claim C5: when every group before the offending one is processed
cleanly and a group's terminator-role line differs from `---`,
`NewEntriesFromFile` fails with a `ParseError` carrying the offending
line number and content, whose reason (built by `endMismatchReason`)
reports both the found content and the expected delimiter; the storage
returned holds exactly the records of the earlier, fully terminated
groups — the in-flight record is not committed. -/
theorem claim5_terminator_mismatch (gs : List EGroup) (bad : EGroup) (rest : List String)
    (hgs : ∀ g ∈ gs, GoodGroupB g = true)
    (hrun : (runGroup bad).isSome = true)
    (hterm : bad.term ≠ EntryDelimiter) :
    NewEntriesFromFile (linesOfGroups gs ++ (bad.lines ++ rest)) =
      ParseResult.error (commitAll Entries.empty gs)
        { line := 8 * gs.length + 8, data := bad.term,
          reason := endMismatchReason (8 * gs.length + 8) bad.term } ∧
    NewEntriesFromFile (linesOfGroups gs) = ParseResult.ok (commitAll Entries.empty gs) := by
  constructor
  · unfold NewEntriesFromFile
    rw [parseLoop_goodGroups gs (bad.lines ++ rest) 1 Entries.empty (le_refl 1) (by norm_num) hgs]
    obtain ⟨e, he⟩ := Option.isSome_iff_exists.mp hrun
    obtain ⟨e1, e2, e3, hid, hu, ht, hE⟩ := runGroup_elim bad e he
    have hid2 : processID (1 + 8 * gs.length) bad.idLine Entry.empty = Except.ok e1 :=
      (processID_ok_iff (1 + 8 * gs.length) 1 bad.idLine Entry.empty e1).mpr hid
    rw [parseLoop_seven bad rest (1 + 8 * gs.length) (commitAll Entries.empty gs) e1 e2 e3
      (by omega) (by omega) hid2 hu ht]
    rw [if_neg hterm]
    rw [show 1 + 8 * gs.length + 7 = 8 * gs.length + 8 from by omega]
  · exact newEntries_goodGroups gs hgs

/-- Witness for C5: a single group terminated by `END` instead of
`---` fails at line 8 with the expected diagnostic. -/
theorem claim5_witness :
    NewEntriesFromFile (linesOfGroups [] ++ (EGroup.lines gBadTerm ++ [])) =
      ParseResult.error (commitAll Entries.empty [])
        { line := 8 * ([] : List EGroup).length + 8, data := gBadTerm.term,
          reason := endMismatchReason (8 * ([] : List EGroup).length + 8) gBadTerm.term } :=
  (claim5_terminator_mismatch [] gBadTerm [] (by simp) (by decide) (by decide)).1

/-- Counterexample to claim C6 as stated: the stream with ID line
`0000` is parsed without any structural parse error (the 4-character
prefix parses to 0 and the terminator matches), yet the commit writes
at index `0 - 1 = -1`, outside the 2200-slot storage — in Go a runtime
index-out-of-range panic, not an in-bounds write. -/
theorem claim6_counterexample :
    NewEntriesFromFile ["0000", "u", "t", "w", "p", "d", "g", "---"] =
      ParseResult.panicIndex (-1) ∧
    goParseInt "0000" = some 0 := ⟨rfl, rfl⟩

/-- Claim C6 (amended): the parser itself never checks the range; the
writes are in bounds exactly when the ids are.  Whenever every ID-role
line whose 4-character prefix parses yields an id in 1..2200, no
out-of-bounds storage write (index panic) can occur. -/
theorem claim6_amended (lines : List String) (i : Int)
    (h : allIDsInRange lines 0 = true) :
    NewEntriesFromFile lines ≠ ParseResult.panicIndex i := by
  unfold NewEntriesFromFile
  exact parseLoop_no_panicIndex lines 1 Entry.empty Entries.empty i (le_refl 1) h (Or.inl rfl)

/-- Witness for the amended C6 at a concrete in-range one-group stream. -/
theorem claim6_witness :
    NewEntriesFromFile (linesOfGroups [gSampleC6]) ≠ ParseResult.panicIndex 0 :=
  claim6_amended (linesOfGroups [gSampleC6]) 0 (by decide)

/-- Counterexample to claim C7 as stated: the stream `["ab"]` ends
before its group's terminator (an incomplete final group), but instead
of returning the same storage as the empty stream with no error, the
scanner fails with the short-ID structural error. -/
theorem claim7_counterexample :
    NewEntriesFromFile ["ab"] =
      ParseResult.error Entries.empty
        { line := 1, data := "ab", reason := idTooShortReason 1 "ab" } ∧
    NewEntriesFromFile ([] : List String) = ParseResult.ok Entries.empty := ⟨rfl, rfl⟩

/-- Claim C7 (amended): an incomplete trailing group is silently
dropped — same storage, no error, no partial commit — provided its
present lines themselves raise no structural error or panic (its ID
line, when present, parses; its usage/translation lines, when present,
do not crash the validator). -/
theorem claim7_amended (gs : List EGroup) (post : List String)
    (hgs : ∀ g ∈ gs, GoodGroupB g = true)
    (hlen : post.length < 8) (hok : trailingOkB post = true) :
    NewEntriesFromFile (linesOfGroups gs ++ post) = ParseResult.ok (commitAll Entries.empty gs) ∧
    NewEntriesFromFile (linesOfGroups gs) = ParseResult.ok (commitAll Entries.empty gs) := by
  constructor
  · unfold NewEntriesFromFile
    rw [parseLoop_goodGroups gs post 1 Entries.empty (le_refl 1) (by norm_num) hgs]
    exact parseLoop_trailing post hlen hok (1 + 8 * gs.length) (commitAll Entries.empty gs)
      (by omega) (by omega)
  · exact newEntries_goodGroups gs hgs

/-- Witness for the amended C7: one complete group followed by a lone
trailing ID line yields the same storage as the complete group alone. -/
theorem claim7_witness :
    NewEntriesFromFile (linesOfGroups [gSampleC7] ++ ["0005"]) =
      ParseResult.ok (commitAll Entries.empty [gSampleC7]) :=
  (claim7_amended [gSampleC7] ["0005"] (by decide) (by decide) (by decide)).1

/-- Claim C8: in a stream of groups all processed without structural
error, a group whose usage line has no cloze-deletion match still
parses — the whole stream succeeds — and that group's committed record
is dirty and carries the note `usage is missing cloze deletion.`. -/
theorem claim8_missing_cloze (gs : List EGroup) (g : EGroup)
    (hmem : g ∈ gs) (hgs : ∀ x ∈ gs, GoodGroupB x = true)
    (hnd : (gs.map groupIdx).Nodup)
    (hnc : clozeFind g.usage = none) :
    NewEntriesFromFile (linesOfGroups gs) = ParseResult.ok (commitAll Entries.empty gs) ∧
    (commitAll Entries.empty gs (groupIdx g)).dirty = true ∧
    "usage is missing cloze deletion." ∈ (commitAll Entries.empty gs (groupIdx g)).comments := by
  have hslot : commitAll Entries.empty gs (groupIdx g) = groupEntry g :=
    commitAll_slot_mem gs Entries.empty g hmem hnd
  obtain ⟨e, he, _, _, _⟩ := goodGroupB_elim g (hgs g hmem)
  obtain ⟨e1, e2, e3, hid, hu, ht, hE⟩ := runGroup_elim g e he
  obtain ⟨hdirty2, hmem2⟩ := processUsage_nocloze g.usage e1 e2 hnc hu
  obtain ⟨_, _, _, _, _, _, _, _, hdmono, hcmono⟩ := processTranslation_some_shape g.translation e2 e3 ht
  have hge : groupEntry g = e := by unfold groupEntry; rw [he]; rfl
  have hdirty3 : e3.dirty = true := hdmono hdirty2
  have hmem3 : "usage is missing cloze deletion." ∈ e3.comments := hcmono _ hmem2
  refine ⟨newEntries_goodGroups gs hgs, ?_, ?_⟩
  · rw [hslot, hge, hE]
    simp [finishEntry, hdirty3]
  · rw [hslot, hge, hE]
    simpa [finishEntry] using hmem3

/-- Witness for C8 at a concrete group with a plain usage line. -/
theorem claim8_witness :
    NewEntriesFromFile (linesOfGroups [gNoCloze]) =
      ParseResult.ok (commitAll Entries.empty [gNoCloze]) :=
  (claim8_missing_cloze [gNoCloze] gNoCloze (by decide) (by decide) (by decide) (by decide)).1

/-- Claim C9: both baseline adversarial inputs are rejected by the
validator — `<p>1 < 5</p>` leaves unclosed tags and `<p>1 <> 5</p>`
trips the empty-tag check. -/
theorem claim9_adversarial_inputs :
    IsValidHTML "<p>1 < 5</p>" = HTMLResult.err "not all tags closed: [p 5</p]" ∧
    IsValidHTML "<p>1 <> 5</p>" = HTMLResult.err "empty tag found" := by
  constructor <;> decide

/-- Counterexample to claim C10 as stated: `< >` contains a `>` (at
index 2) with no `<` at or after it, yet the validator reports an
error (`empty tag found`) rather than returning success. -/
theorem claim10_counterexample :
    hasStrayGTB "< >" = true ∧ IsValidHTML "< >" = HTMLResult.err "empty tag found" := by
  constructor <;> decide

/-- Claim C10 (amended): a string containing no `<` at all — however
many `>` it contains — always validates: the scan finds no opening
bracket and the stack stays empty. -/
theorem claim10_amended (s : String) (h : '<' ∉ s.data) : IsValidHTML s = HTMLResult.ok := by
  unfold IsValidHTML
  by_cases h0 : 0 < s.data.length
  · simp [htmlLoop, h0, indexOfChar_eq_none_of_not_mem s.data '<' h, htmlFinish, List.drop_zero]
  · simp [htmlLoop, h0, htmlFinish, show ¬0 < s.length from h0]

/-- Witness for the amended C10 at `1 > 0`. -/
theorem claim10_witness : IsValidHTML "1 > 0" = HTMLResult.ok :=
  claim10_amended "1 > 0" (by decide)
